import Mathlib

/-!
Verification of the `ngsg_rerun.py` ETL pipeline (NGS genotyping rerun-manifest
generator): a shallow embedding of the report parser, Stage3 parser, collator,
manifest writer and the FASTA character checkers, together with theorems about
the specified behaviour.

Python strings are Lean `String`s, Python lists are Lean `List`s, and Python
`dict`s (which preserve insertion order) are association lists.  Python
exceptions are modelled with `Except Unit`; the source's whole-parse
`try/except` blocks become folds that stop at the first erroneous row and
return the accumulator built so far.
-/

/-- Python `s.split(c)` on a single-character separator (no merging of empty
pieces; the empty string splits to `[""]`), accumulator form. -/
def splitCharAux (c : Char) : List Char → List Char → List String
  | [], acc => [String.mk acc.reverse]
  | x :: xs, acc =>
    if x = c then String.mk acc.reverse :: splitCharAux c xs []
    else splitCharAux c xs (x :: acc)

/-- Python `s.split(c)` on a single-character separator. -/
def splitChar (c : Char) (s : String) : List String :=
  splitCharAux c s.data []

/-- Python `s.strip()`: remove leading and trailing whitespace. -/
def pyStrip (s : String) : String :=
  String.mk (((s.data.dropWhile Char.isWhitespace).reverse.dropWhile Char.isWhitespace).reverse)

/-- Python `s.startswith(pre)`. -/
def pyStartsWith (pre s : String) : Bool :=
  pre.data.isPrefixOf s.data

/-- Python `s.endswith(suf)`. -/
def pyEndsWith (suf s : String) : Bool :=
  suf.data.reverse.isPrefixOf s.data.reverse

/-- Python `s.replace(c, "")` for a single character: drop every occurrence. -/
def pyRemoveChar (c : Char) (s : String) : String :=
  String.mk (s.data.filter (fun x => x ≠ c))

/-- Python `s.splitlines()`, modelling only the newline terminator `\n`:
split on newlines and drop the empty piece a trailing newline would leave. -/
def pySplitlines (s : String) : List String :=
  if (splitChar '\n' s).getLast? = some "" then (splitChar '\n' s).dropLast
  else splitChar '\n' s

/-- Python `c in s` for a single character. -/
def pyHasChar (c : Char) (s : String) : Bool :=
  s.data.contains c

/-- The first non-empty string of a list, or `""` when every element is empty
(the value a scan of the form `if v_ and not v: v = v_` resolves to). -/
def firstNonEmptyD : List String → String
  | [] => ""
  | x :: xs => if x = "" then firstNonEmptyD xs else x

/-- The value a first-non-empty scan starting from current value `x` resolves
to after also seeing the list `l`. -/
def resAfter (x : String) (l : List String) : String :=
  if x = "" then firstNonEmptyD l else x

/-- One step of the source's `if v_ and not v: v = v_` update. -/
def updFirst (cur new : String) : String :=
  if new ≠ "" ∧ cur = "" then new else cur

theorem resAfter_cons (x y : String) (l : List String) :
    resAfter x (y :: l) = resAfter (updFirst x y) l := by
  by_cases hx : x = "" <;> by_cases hy : y = "" <;>
    simp [resAfter, updFirst, firstNonEmptyD, hx, hy]

/-- Ordered-dictionary lookup on an association list (Python `d[k]` / `k in d`). -/
def alGet {κ β : Type} [DecidableEq κ] : List (κ × β) → κ → Option β
  | [], _ => none
  | p :: t, k => if p.1 = k then some p.2 else alGet t k

/-- Python's `if k not in d: d[k] = []` followed by `d[k].append(v)` on an
insertion-ordered dictionary of lists. -/
def updAppend {κ β : Type} [DecidableEq κ] (l : List (κ × List β)) (k : κ) (v : β) :
    List (κ × List β) :=
  if l.any (fun p => decide (p.1 = k)) then
    l.map (fun p => if p.1 = k then (p.1, p.2 ++ [v]) else p)
  else l ++ [(k, [v])]

/-- `v` is one of the values accumulated under key `k`. -/
def containsEntry {κ β : Type} (l : List (κ × List β)) (k : κ) (v : β) : Prop :=
  ∃ p, p ∈ l ∧ p.1 = k ∧ v ∈ p.2

instance {κ β : Type} [DecidableEq κ] [DecidableEq β] (l : List (κ × List β)) (k : κ) (v : β) :
    Decidable (containsEntry l k v) := by
  unfold containsEntry
  infer_instance

/-- Python string comparison `a <= b` (lexicographic on code points) on the
underlying character lists. -/
def charListLe : List Char → List Char → Bool
  | [], _ => true
  | _ :: _, [] => false
  | a :: as, b :: bs => if a = b then charListLe as bs else decide (a < b)

/-- Python string comparison `a <= b`. -/
def strLeB (a b : String) : Bool :=
  charListLe a.data b.data

/-- Insert into a sorted list of strings, keeping it sorted. -/
def insertSorted (x : String) : List String → List String
  | [] => [x]
  | y :: ys => if strLeB x y then x :: y :: ys else y :: insertSorted x ys

/-- Python `sorted` on a list of strings (insertion sort; on a total order the
result agrees with any comparison sort). -/
def sortStrings : List String → List String
  | [] => []
  | x :: xs => insertSorted x (sortStrings xs)

theorem charListLe_total (a b : List Char) : charListLe a b = true ∨ charListLe b a = true := by
  induction a generalizing b with
  | nil => left; simp [charListLe]
  | cons x xs ih =>
    cases b with
    | nil => right; simp [charListLe]
    | cons y ys =>
      by_cases h : x = y
      · subst h
        rcases ih ys with h1 | h1
        · left; simpa [charListLe] using h1
        · right; simpa [charListLe] using h1
      · rcases lt_or_gt_of_ne h with hlt | hgt
        · left; simp [charListLe, h, hlt]
        · right; have h' : y ≠ x := fun he => h he.symm
          simp [charListLe, h', hgt]

theorem strLeB_total (a b : String) : strLeB a b = true ∨ strLeB b a = true :=
  charListLe_total a.data b.data

theorem charListLe_trans (a : List Char) : ∀ b c,
    charListLe a b = true → charListLe b c = true → charListLe a c = true := by
  induction a with
  | nil => intro b c _ _; simp [charListLe]
  | cons x xs ih =>
    intro b c hab hbc
    cases b with
    | nil => simp [charListLe] at hab
    | cons y ys =>
      cases c with
      | nil => simp [charListLe] at hbc
      | cons z zs =>
        by_cases hxy : x = y <;> by_cases hyz : y = z
        · subst hxy; subst hyz
          simp only [charListLe, if_pos rfl] at hab hbc ⊢
          exact ih ys zs hab hbc
        · subst hxy
          simp only [charListLe, if_neg hyz] at hbc
          simp only [charListLe, if_neg hyz]
          exact hbc
        · subst hyz
          simp only [charListLe, if_neg hxy] at hab
          simp only [charListLe, if_neg hxy]
          exact hab
        · simp only [charListLe, if_neg hxy] at hab
          simp only [charListLe, if_neg hyz] at hbc
          have hxz : x < z := lt_trans (of_decide_eq_true hab) (of_decide_eq_true hbc)
          have hne : x ≠ z := ne_of_lt hxz
          simp [charListLe, if_neg hne, hxz]

theorem strLeB_trans (a b c : String) :
    strLeB a b = true → strLeB b c = true → strLeB a c = true :=
  charListLe_trans a.data b.data c.data

theorem mem_insertSorted (x z : String) (l : List String) :
    z ∈ insertSorted x l ↔ z = x ∨ z ∈ l := by
  induction l with
  | nil => simp [insertSorted]
  | cons y ys ih =>
    by_cases h : strLeB x y = true
    · simp only [insertSorted, if_pos h]
      simp
    · simp only [insertSorted, if_neg h]
      simp [ih]
      tauto

theorem insertSorted_perm (x : String) (l : List String) :
    (insertSorted x l).Perm (x :: l) := by
  induction l with
  | nil => simp [insertSorted]
  | cons y ys ih =>
    by_cases h : strLeB x y = true
    · simp only [insertSorted, if_pos h]
      exact List.Perm.refl _
    · simp only [insertSorted, if_neg h]
      exact (ih.cons y).trans (List.Perm.swap x y ys)

theorem sortStrings_perm (l : List String) : (sortStrings l).Perm l := by
  induction l with
  | nil => simp [sortStrings]
  | cons x xs ih =>
    exact (insertSorted_perm x (sortStrings xs)).trans (ih.cons x)

theorem insertSorted_sorted (x : String) (l : List String)
    (h : l.Pairwise (fun a b => strLeB a b = true)) :
    (insertSorted x l).Pairwise (fun a b => strLeB a b = true) := by
  induction l with
  | nil => simp [insertSorted]
  | cons y ys ih =>
    rcases List.pairwise_cons.mp h with ⟨hy, hys⟩
    by_cases hxy : strLeB x y = true
    · simp only [insertSorted, if_pos hxy]
      refine List.pairwise_cons.mpr ⟨?_, h⟩
      intro z hz
      rcases List.mem_cons.mp hz with hz | hz
      · subst hz; exact hxy
      · exact strLeB_trans x y z hxy (hy z hz)
    · simp only [insertSorted, if_neg hxy]
      refine List.pairwise_cons.mpr ⟨?_, ih hys⟩
      intro z hz
      rcases (mem_insertSorted x z ys).mp hz with hz | hz
      · rw [hz]
        rcases strLeB_total x y with h1 | h1
        · exact absurd h1 hxy
        · exact h1
      · exact hy z hz

theorem sortStrings_sorted (l : List String) :
    (sortStrings l).Pairwise (fun a b => strLeB a b = true) := by
  induction l with
  | nil => simp [sortStrings]
  | cons x xs ih => exact insertSorted_sorted x (sortStrings xs) ih

/-! External collaborators from `bin.util` (not part of this repository's
source tree), modelled from the spec. -/

/-- Modelled from the spec: `bin.util.unguard` (missing from the source tree),
the de-obfuscation transform for sample barcodes and names.  A guarded custom
barcode has the form `c…c` (the source docstring pairs `cM014502400050c` with
plain `M014502400050`); the transform strips that guard and, called with
`silent=True`, returns any unguarded string unchanged. -/
def unguard (s : String) : String :=
  if pyStartsWith "c" s && pyEndsWith "c" s && decide (3 ≤ s.data.length) then
    String.mk ((s.data.drop 1).dropLast)
  else s

/-- Modelled from the spec: `bin.util.unguard_pbc` (missing from the source
tree), the de-obfuscation transform for plate barcodes, which are guarded with
`p…p` (the source docstring shows `p230123VRP1p`); with `silent=True` an
unguarded string is returned unchanged. -/
def unguard_pbc (s : String) : String :=
  if pyStartsWith "p" s && pyEndsWith "p" s && decide (3 ≤ s.data.length) then
    String.mk ((s.data.drop 1).dropLast)
  else s

/-- Modelled from the spec: `bin.util.col_ordered_384` (missing from the source
tree), the canonical 384-well column-major traversal order A1, B1, …, P1,
A2, …, P24 over the 16×24 grid. -/
def col_ordered_384 : List String :=
  (List.range 24).flatMap (fun c =>
    (List.range 16).map (fun r => String.mk [Char.ofNat (65 + r)] ++ Nat.repr (c + 1)))

/-! The report parser (`parse_failed_genotyping_results`). -/

/-- A failed-assay key `(barcode, plate, wellLocation, sex)`. -/
abbrev FailedKey := String × String × String × String

/-- The report parser's result: an insertion-ordered mapping from `FailedKey`
to the `(assay, alleleSymbol)` pairs accumulated for it. -/
abbrev FailedMap := List (FailedKey × List (String × String))

/-- `cols = [c.strip() for c in line.split(',')]`. -/
def reportCols (line : String) : List String :=
  (splitChar ',' line).map pyStrip

/-- The genotype field of a report row (column index 19). -/
def rowGenotype (line : String) : String :=
  (reportCols line).getD 19 ""

/-- The outcome of one iteration of the report-parser loop body on `line`:
`.error ()` when the body raises (a `barcode;assay` composite that does not
split into exactly two parts, or too few columns for `cols[21]`),
`.ok none` when the row is skipped or discarded, and `.ok (some (k, v))` when
the row appends `v = (assay, alleleSymbol)` under key `k`. -/
def rowOutcome (line : String) : Except Unit (Option (FailedKey × (String × String))) :=
  if pyStartsWith "barcode" line then .ok none
  else if (reportCols line).length < 21 then .ok none
  else if (splitChar ';' ((reportCols line).getD 1 "")).length ≠ 2 then .error ()
  else if (reportCols line).length < 22 then .error ()
  else if pyHasChar '?' ((reportCols line).getD 19 "") then
    .ok (some (((splitChar ';' ((reportCols line).getD 1 "")).getD 0 "",
                (reportCols line).getD 2 "", (reportCols line).getD 3 "",
                (reportCols line).getD 4 ""),
               ((splitChar ';' ((reportCols line).getD 1 "")).getD 1 "",
                pyStrip ((reportCols line).getD 5 ""))))
  else .ok none

/-- `true` when the loop body raises on this row (the exception is caught by
the whole-parse handler). -/
def reportRowFails (line : String) : Bool :=
  match rowOutcome line with
  | .error _ => true
  | .ok _ => false

/-- A data row the parser can take apart: not the header, at least 22
comma-separated fields, and a composite field that splits on `;` into exactly
two parts. -/
def reportRowWellFormed (line : String) : Bool :=
  !pyStartsWith "barcode" line
    && decide (22 ≤ (reportCols line).length)
    && (splitChar ';' ((reportCols line).getD 1 "")).length == 2

/-- Shared loop shape of both parsers: process rows in order, accumulating
into an insertion-ordered dictionary of lists; the first row whose body raises
ends the loop (its exception is caught at whole-parse scope) and the
accumulator built so far is returned. -/
def parseRows {κ β : Type} [DecidableEq κ]
    (row : String → Except Unit (Option (κ × β))) (acc : List (κ × List β)) :
    List String → List (κ × List β)
  | [] => acc
  | l :: ls =>
    match row l with
    | .error _ => acc
    | .ok none => parseRows row acc ls
    | .ok (some (k, v)) => parseRows row (updAppend acc k v) ls

/-- `parse_failed_genotyping_results`: scan the report lines and group the
`(assay, alleleSymbol)` pairs of rows whose genotype field contains `?` under
their `(barcode, plate, wellLocation, sex)` key. -/
def parse_failed_genotyping_results (lines : List String) : FailedMap :=
  parseRows rowOutcome [] lines

/-! The Stage3 parser (`parse_stage3_csv`). -/

/-- One Stage3 record
`(dnaPlate, dnaWell, alleleSymbol, alleleKey, assayKey, assay, assayFamily, clientName, sampleName)`. -/
structure Stage3Rec where
  dnaPlate : String
  dnaWell : String
  alleleSymbol : String
  alleleKey : String
  assayKey : String
  assay : String
  assayFamily : String
  clientName : String
  sampleName : String
deriving DecidableEq

/-- The Stage3 index: barcode → ordered records. -/
abbrev Stage3Index := List (String × List Stage3Rec)

/-- The outcome of one iteration of the Stage3-parser loop body on a data
line: quotes are removed, the stripped line is split on commas; rows with
fewer than 5 fields or an empty first field are skipped; rows too short for
the fixed column reads up to `cols[15]` raise (caught at whole-parse scope);
otherwise a record is appended under the unguarded barcode. -/
def stage3RowOutcome (line : String) : Except Unit (Option (String × Stage3Rec)) :=
  let cols := splitChar ',' (pyStrip (pyRemoveChar '"' line))
  if cols.length < 5 || cols.getD 0 "" == "" then .ok none
  else if cols.length < 16 then .error ()
  else .ok (some (unguard (cols.getD 3 ""),
    ⟨cols.getD 13 "", cols.getD 14 "", cols.getD 6 "", cols.getD 7 "", cols.getD 8 "",
     cols.getD 9 "", cols.getD 10 "", cols.getD 11 "", cols.getD 12 ""⟩))

/-- `parse_stage3_csv`: the first line (after quote removal) must start with
`sampleNo`, otherwise an empty mapping is returned; the remaining lines are
accumulated into the barcode index, stopping at the first raising row. -/
def parse_stage3_csv (lines : List String) : Stage3Index :=
  match lines with
  | [] => []
  | l0 :: rest =>
    if pyStartsWith "sampleNo" (pyRemoveChar '"' l0) then parseRows stage3RowOutcome [] rest
    else []

/-! The collator (`collate_manifest_entries`). -/

/-- The aggregated per-well record
`{'barcode': …, 'assays': …, 'alleleSymbols': …, 'clientName': …, 'sampleName': …}`. -/
structure PlateWellEntry where
  barcode : String
  assays : List String
  alleleSymbols : List String
  clientName : String
  sampleName : String
deriving DecidableEq

/-- `plate_set`: dnaPlate → dnaWell → entry, both levels insertion-ordered. -/
abbrev PlateSet := List (String × List (String × PlateWellEntry))

/-- The two trailing `if` statements of the collator loop body: fill
`clientName` / `sampleName` when the candidate is non-empty and the field is
still empty. -/
def fillNames (e : PlateWellEntry) (c s : String) : PlateWellEntry :=
  ⟨e.barcode, e.assays, e.alleleSymbols,
   if c ≠ "" ∧ e.clientName = "" then c else e.clientName,
   if s ≠ "" ∧ e.sampleName = "" then s else e.sampleName⟩

/-- `if dnaWell not in plate_set[dnaPlate]: … = new entry`, then the name
fills, inside one plate's well dictionary. -/
def placeWell (wells : List (String × PlateWellEntry)) (w b : String)
    (as al : List String) (c s : String) : List (String × PlateWellEntry) :=
  (if wells.any (fun q => decide (q.1 = w)) then wells
   else wells ++ [(w, ⟨b, as, al, "", ""⟩)]).map
    (fun q => if q.1 = w then (q.1, fillNames q.2 c s) else q)

/-- `if dnaPlate not in plate_set: plate_set[dnaPlate] = {}` followed by the
well-level update. -/
def placeEntry (ps : PlateSet) (p w b : String) (as al : List String) (c s : String) :
    PlateSet :=
  (if ps.any (fun q => decide (q.1 = p)) then ps else ps ++ [(p, [])]).map
    (fun q => if q.1 = p then (q.1, placeWell q.2 w b as al c s) else q)

/-- The collator's per-barcode scan state: the four first-non-empty resolution
variables and the plate set under construction. -/
structure ResolveState where
  clientName : String
  sampleName : String
  dnaPlate : String
  dnaWell : String
  ps : PlateSet

/-- One iteration of `for result in stage3_dict[barcode]`: update the four
resolution variables, and once both dnaPlate and dnaWell are non-empty create
or reuse the entry at `plate_set[dnaPlate][dnaWell]` and fill its names. -/
def resolveStep (b : String) (as al : List String) (st : ResolveState) (r : Stage3Rec) :
    ResolveState :=
  if updFirst st.dnaPlate r.dnaPlate ≠ "" ∧ updFirst st.dnaWell r.dnaWell ≠ "" then
    ⟨updFirst st.clientName r.clientName, updFirst st.sampleName r.sampleName,
     updFirst st.dnaPlate r.dnaPlate, updFirst st.dnaWell r.dnaWell,
     placeEntry st.ps (updFirst st.dnaPlate r.dnaPlate) (updFirst st.dnaWell r.dnaWell)
       b as al (updFirst st.clientName r.clientName) (updFirst st.sampleName r.sampleName)⟩
  else
    ⟨updFirst st.clientName r.clientName, updFirst st.sampleName r.sampleName,
     updFirst st.dnaPlate r.dnaPlate, updFirst st.dnaWell r.dnaWell, st.ps⟩

/-- The collator body for one failed-assay key: look the barcode up in the
Stage3 index (absent barcodes contribute nothing) and scan its records. -/
def processIdent (ps : PlateSet) (ident : FailedKey) (pairs : List (String × String))
    (stage3 : Stage3Index) : PlateSet :=
  match alGet stage3 ident.1 with
  | none => ps
  | some records =>
    (records.foldl (resolveStep ident.1 (pairs.map Prod.fst) (pairs.map Prod.snd))
      ⟨"", "", "", "", ps⟩).ps

/-- `collate_manifest_entries`: join the failed assays against the Stage3
index into the plate set. -/
def collate_manifest_entries (failed : FailedMap) (stage3 : Stage3Index) : PlateSet :=
  failed.foldl (fun ps kv => processIdent ps kv.1 kv.2 stage3) []

/-! The manifest writer (`generate_manifest_384`). -/

/-- Entry lookup `plate_set[gpid][pos]`. -/
def getWell (ps : PlateSet) (g w : String) : Option PlateWellEntry :=
  (alGet ps g).bind (fun ws => alGet ws w)

/-- Entry lookup with a default, for stating theorems about wells known to be
present. -/
def getWellD (ps : PlateSet) (g w : String) : PlateWellEntry :=
  (getWell ps g w).getD ⟨"", [], [], "", ""⟩

/-- The fixed manifest header row. -/
def manifestHeader : String :=
  String.intercalate "," ["Sample no", "plateBarcode", "well", "sampleBarcode",
    "Assay", "Assay", "Assay", "Assay", "Assay", "Assay", "Assay",
    "clientName", "sampleName", "alleleSymbol"]

/-- The fields of one emitted manifest row: sample number, unguarded plate
barcode, well, sample barcode, the assay list padded with `''` up to 7
columns (never truncated), client name, unguarded sample name, and the
`;`-joined allele symbols. -/
def renderRowFields (counter : Nat) (g pos : String) (e : PlateWellEntry) : List String :=
  [Nat.repr counter, unguard_pbc g, pos, e.barcode]
    ++ (e.assays ++ List.replicate (7 - e.assays.length) "")
    ++ [e.clientName, unguard e.sampleName, String.intercalate ";" e.alleleSymbols]

/-- One emitted manifest row, comma-joined. -/
def renderRow (counter : Nat) (g pos : String) (e : PlateWellEntry) : String :=
  String.intercalate "," (renderRowFields counter g pos e)

/-- The body of the inner well loop: `if pos in plate_set[gpid]`, increment
the sample counter and emit a row. -/
def wellStep (ps : PlateSet) (g : String) (acc : Nat × List String) (pos : String) :
    Nat × List String :=
  match getWell ps g pos with
  | some e => (acc.1 + 1, acc.2 ++ [renderRow (acc.1 + 1) g pos e])
  | none => acc

/-- The emitted data rows: plates in `sorted` key order, wells in the
canonical 384-well order, a row per present well, with a running counter. -/
def manifestBody (ps : PlateSet) : List String :=
  ((sortStrings (ps.map Prod.fst)).foldl
    (fun acc g => col_ordered_384.foldl (wellStep ps g) acc) (0, [])).2

/-- `generate_manifest_384`: collate, return `none` (Python `False`) on an
empty plate set, otherwise the written file contents (header plus body). -/
def generate_manifest_384 (failed : FailedMap) (stage3 : Stage3Index) :
    Option (List String) :=
  match collate_manifest_entries failed stage3 with
  | [] => none
  | ps => some (manifestHeader :: manifestBody ps)

/-! The FASTA character checkers (`check_valid_sequence`, `check_gaps`,
`check_blank_lines`).  The module-level counter `issue_num` these functions
increment through `global issue_num` is modelled as an `Option Nat`: `none`
means the name is unbound at module scope (as in the source, where nothing
ever initializes it), so `issue_num += 1` raises `NameError`, modelled as
`.error ()`. -/

/-- One reported issue row (the f-string quote marks around the offending
character are omitted from the message text). -/
structure Issue where
  issueNum : Nat
  lineNum : Nat
  msg : String
deriving DecidableEq

/-- `char not in "AaTtCcGgNn"` is the issue condition; this is the allowed set. -/
def validNucl (c : Char) : Bool :=
  "AaTtCcGgNn".data.contains c

/-- `line.strip().replace(" ", "").replace("\t", "")`. -/
def cleanSeq (line : String) : String :=
  String.mk ((pyStrip line).data.filter (fun c => c ≠ ' ' ∧ c ≠ '\t'))

/-- A line `check_valid_sequence` skips: a `>` header or a blank line. -/
def fastaSkipLine (line : String) : Bool :=
  pyStartsWith ">" line || pyStrip line == ""

/-- The inner character loop of `check_valid_sequence` over the enumerated
cleaned sequence: each invalid character executes `issue_num += 1`, which
raises when the global is unbound. -/
def scanSeqChars (g : Option Nat) (lineNum : Nat) (issues : List Issue) :
    List (Nat × Char) → Except Unit (Option Nat × List Issue)
  | [] => .ok (g, issues)
  | (idx, ch) :: rest =>
    if validNucl ch then scanSeqChars g lineNum issues rest
    else
      match g with
      | none => .error ()
      | some n =>
        scanSeqChars (some (n + 1)) lineNum
          (issues ++ [⟨n + 1, lineNum,
            "Invalid character in sequence: " ++ String.mk [ch]
              ++ " at position " ++ Nat.repr (idx + 1)⟩]) rest

/-- The line loop of `check_valid_sequence`. -/
def checkValidSeqGo (g : Option Nat) (lineNum : Nat) (issues : List Issue) :
    List String → Except Unit (List Issue)
  | [] => .ok issues
  | l :: ls =>
    if fastaSkipLine l then checkValidSeqGo g (lineNum + 1) issues ls
    else
      match scanSeqChars g lineNum issues (cleanSeq l).data.enum with
      | .error e => .error e
      | .ok (g', issues') => checkValidSeqGo g' (lineNum + 1) issues' ls

/-- `check_valid_sequence`, with the module-level `issue_num` state passed
explicitly. -/
def check_valid_sequence (g : Option Nat) (file_content : String) :
    Except Unit (List Issue) :=
  checkValidSeqGo g 1 [] (pySplitlines file_content)

/-- The line loop of `check_gaps`: a space or tab anywhere in a non-header,
non-blank line executes `issue_num += 1`. -/
def checkGapsGo (g : Option Nat) (lineNum : Nat) (issues : List Issue) :
    List String → Except Unit (List Issue)
  | [] => .ok issues
  | l :: ls =>
    if fastaSkipLine l then checkGapsGo g (lineNum + 1) issues ls
    else if pyHasChar ' ' l || pyHasChar '\t' l then
      match g with
      | none => .error ()
      | some n =>
        checkGapsGo (some (n + 1)) (lineNum + 1)
          (issues ++ [⟨n + 1, lineNum, "Gap (space or tab) in sequence"⟩]) ls
    else checkGapsGo g (lineNum + 1) issues ls

/-- `check_gaps`, with the module-level `issue_num` state passed explicitly. -/
def check_gaps (g : Option Nat) (file_content : String) : Except Unit (List Issue) :=
  checkGapsGo g 1 [] (pySplitlines file_content)

/-- The line loop of `check_blank_lines`: every blank line executes
`issue_num += 1`. -/
def checkBlankGo (g : Option Nat) (lineNum : Nat) (issues : List Issue) :
    List String → Except Unit (List Issue)
  | [] => .ok issues
  | l :: ls =>
    if pyStrip l == "" then
      match g with
      | none => .error ()
      | some n =>
        checkBlankGo (some (n + 1)) (lineNum + 1)
          (issues ++ [⟨n + 1, lineNum, "Blank line found"⟩]) ls
    else checkBlankGo g (lineNum + 1) issues ls

/-- `check_blank_lines`, with the module-level `issue_num` state passed
explicitly. -/
def check_blank_lines (g : Option Nat) (file_content : String) :
    Except Unit (List Issue) :=
  checkBlankGo g 1 [] (pySplitlines file_content)

/-- The input has a line with an invalid nucleotide character (the condition
under which `check_valid_sequence` reaches its `issue_num += 1`). -/
def hasInvalidSeqChar (file_content : String) : Bool :=
  (pySplitlines file_content).any
    (fun l => !fastaSkipLine l && (cleanSeq l).data.any (fun c => !validNucl c))

/-- The input has a space or tab inside a sequence line (the condition under
which `check_gaps` reaches its `issue_num += 1`). -/
def hasGapIssue (file_content : String) : Bool :=
  (pySplitlines file_content).any
    (fun l => !fastaSkipLine l && (pyHasChar ' ' l || pyHasChar '\t' l))

/-- The input has a blank line (the condition under which `check_blank_lines`
reaches its `issue_num += 1`). -/
def hasBlankLine (file_content : String) : Bool :=
  (pySplitlines file_content).any (fun l => pyStrip l == "")

/-! Generic facts about the shared parser loop. -/

theorem reportRowFails_false_iff {l : String} (h : reportRowFails l = false) :
    ∃ o, rowOutcome l = .ok o := by
  unfold reportRowFails at h
  cases ho : rowOutcome l with
  | error e => rw [ho] at h; simp at h
  | ok o => exact ⟨o, rfl⟩

theorem reportRowFails_true_iff {l : String} (h : reportRowFails l = true) :
    rowOutcome l = .error () := by
  unfold reportRowFails at h
  cases ho : rowOutcome l with
  | error e => cases e; rfl
  | ok o => rw [ho] at h; simp at h

theorem parseRows_append_of_fails {κ β : Type} [DecidableEq κ]
    (row : String → Except Unit (Option (κ × β))) (ls₁ ls₂ : List String) (bad : String)
    (h₁ : ∀ l ∈ ls₁, ∃ o, row l = .ok o) (h₂ : row bad = .error ()) :
    ∀ acc, parseRows row acc (ls₁ ++ bad :: ls₂) = parseRows row acc ls₁ := by
  induction ls₁ with
  | nil => intro acc; simp [parseRows, h₂]
  | cons l ls ih =>
    intro acc
    obtain ⟨o, ho⟩ := h₁ l (List.mem_cons_self l ls)
    have h₁' : ∀ l' ∈ ls, ∃ o, row l' = .ok o :=
      fun l' hl' => h₁ l' (List.mem_cons_of_mem l hl')
    cases o with
    | none =>
      simp only [List.cons_append, parseRows, ho]
      exact ih h₁' acc
    | some kv =>
      simp only [List.cons_append, parseRows, ho]
      exact ih h₁' (updAppend acc kv.1 kv.2)

/-! Concrete inputs used by the closed theorems and witnesses. -/

/-- A report header line. -/
def reportHeaderLine : String := "barcode,code_assays,plate,wellLocation,sex,alleleSymbol"

/-- The report row of the end-to-end scenario: composite `cM0001;AssayX`,
plate `plateA`, well `A1`, sex `F`, alleleSymbol `Sym1`, genotype `A?G`
(22 fields). -/
def reportLineC2 : String := "x,cM0001;AssayX,plateA,A1,F,Sym1,,,Pass,,,,,,,,,,,A?G,,reasonText"

/-- A Stage3 header line. -/
def stage3HeaderLine : String := "sampleNo,samplePlate,sampleWell,sampleBarcode"

/-- The Stage3 row of the end-to-end scenario: barcode `cM0001`, assay
`AssayX`, family `FamX`, clientName `Client1`, sampleName `SampleA`,
dnaPlate `DNA01`, dnaWell `A1`. -/
def stage3LineC2 : String := "1,plateA,A1,cM0001,s,x,,,,AssayX,FamX,Client1,SampleA,DNA01,A1,primer"

/-- The manifest row the end-to-end scenario must produce. -/
def manifestRowC2 : String := "1,DNA01,A1,cM0001,AssayX,,,,,,,Client1,SampleA,Sym1"

/-- A report row whose composite field `nosemicolon` has no `;`, so the
row-level unpacking raises (22 fields otherwise). -/
def badLineC1 : String := "x,nosemicolon,p,A2,F,SymA,,,Pass,,,,,,,,,,,A?G,,r"

/-- A well-formed failing report row placed after `badLineC1`. -/
def goodLineC1 : String := "x,bcA;asA,p,A2,F,SymA,,,Pass,,,,,,,,,,,A?G,,r"

/-- A well-formed failing report row placed before `badLineC1`. -/
def goodLineC1b : String := "x,bcD;asD,p,A5,M,SymD,,,Pass,,,,,,,,,,,G?T,,r"

/-- A report data row with exactly 21 comma-separated fields (enough to pass
the `len(cols) < 21` guard, too short for the `cols[21]` read). -/
def line21C3 : String := "x,bcB;asB,p,A3,F,SymB,,,Pass,,,,,,,,,,,A?G,"

/-- A well-formed failing report row placed after `line21C3`. -/
def goodLineC3 : String := "x,bcC;asC,p,A3,F,SymC,,,Pass,,,,,,,,,,,A?G,,r2"

/-- A Stage3 first line that starts with a quote character, not with
`sampleNo` — but does start with `sampleNo` once quotes are removed. -/
def quotedHeaderC8 : String := "\"sampleNo\",plate,well,bc,x"

/-- A valid Stage3 data row (16 fields). -/
def stage3LineC8 : String := "1,p,A1,bc1,x,,,,,Ay,Fam,Cl,Sa,DNA01,A1,pr"

/-- C1, counterexample: the claim says rows after a bad row still contribute
their entries.  With a bad row (composite field without `;`) followed by a
well-formed failing row, the parser returns the empty mapping — the later
row's entry, which the row produces when parsed alone, is lost, because the
single `try/except` wraps the whole loop rather than one row. -/
theorem C1_counterexample :
    parse_failed_genotyping_results [badLineC1, goodLineC1] = [] ∧
    parse_failed_genotyping_results [goodLineC1] =
      [(("bcA", "p", "A2", "F"), [("asA", "SymA")])] := by
  exact ⟨rfl, rfl⟩

/-- C1 (amended): the report parser never raises — a row-level exception is
caught by the whole-parse handler — but parsing does not continue past the
bad row: the entries accumulated from the rows before it are returned and
every later row is ignored. -/
theorem C1_parse_stops_at_bad_row (ls₁ ls₂ : List String) (bad : String)
    (h₁ : ∀ l ∈ ls₁, reportRowFails l = false) (h₂ : reportRowFails bad = true) :
    parse_failed_genotyping_results (ls₁ ++ bad :: ls₂) =
      parse_failed_genotyping_results ls₁ := by
  unfold parse_failed_genotyping_results
  exact parseRows_append_of_fails rowOutcome ls₁ ls₂ bad
    (fun l hl => reportRowFails_false_iff (h₁ l hl)) (reportRowFails_true_iff h₂) []

/-- C1 witness: the amended theorem applied to a concrete prefix, bad row and
suffix. -/
theorem C1_parse_stops_witness :
    parse_failed_genotyping_results ([goodLineC1b] ++ badLineC1 :: [goodLineC1]) =
      parse_failed_genotyping_results [goodLineC1b] :=
  C1_parse_stops_at_bad_row [goodLineC1b] [goodLineC1] badLineC1 (by decide) (by decide)

set_option maxRecDepth 100000 in
/-- C2: the end-to-end scenario.  The report row with composite
`cM0001;AssayX` and a `?` in its genotype, joined with the Stage3 row for
barcode `cM0001`, yields exactly the manifest row
`1,DNA01,A1,cM0001,AssayX,,,,,,,Client1,SampleA,Sym1` (after the header), and
its 4th field is the unguarded form of the barcode. -/
theorem C2_end_to_end :
    generate_manifest_384
        (parse_failed_genotyping_results [reportHeaderLine, reportLineC2])
        (parse_stage3_csv [stage3HeaderLine, stage3LineC2])
      = some [manifestHeader, manifestRowC2] ∧
    (splitChar ',' manifestRowC2).getD 3 "" = unguard "cM0001" := by
  constructor
  · decide
  · rfl

/-- C3: the code bug.  A data row with exactly 21 comma-separated fields
passes the `len(cols) < 21` guard but the `cols[21]` read then raises, so the
row is not discarded silently: the whole parse aborts and a well-formed
failing row after it contributes nothing, although alone it would. -/
theorem C3_bug_eval :
    (splitChar ',' line21C3).length = 21 ∧
    reportRowFails line21C3 = true ∧
    parse_failed_genotyping_results [line21C3, goodLineC3] = [] ∧
    parse_failed_genotyping_results [goodLineC3] ≠ [] := by
  refine ⟨rfl, rfl, rfl, ?_⟩
  decide

/-- C8, counterexample: the claim says any Stage3 input whose first line does
not start with `sampleNo` yields an empty mapping.  A first line starting
with a quote character does not start with `sampleNo`, yet the parser strips
quotes before the header check and proceeds to return a non-empty mapping. -/
theorem C8_counterexample :
    pyStartsWith "sampleNo" quotedHeaderC8 = false ∧
    parse_stage3_csv [quotedHeaderC8, stage3LineC8] ≠ [] := by
  refine ⟨rfl, ?_⟩
  decide

/-- C8 (amended): for every Stage3 input whose first line, after removal of
double-quote characters, does not start with `sampleNo`, the parser returns
an empty mapping regardless of the remaining lines. -/
theorem C8_header_abort (l : String) (ls : List String)
    (h : pyStartsWith "sampleNo" (pyRemoveChar '"' l) = false) :
    parse_stage3_csv (l :: ls) = [] := by
  simp [parse_stage3_csv, h]

/-- C8 witness: the amended theorem applied to a concrete rejected header. -/
theorem C8_header_abort_witness : parse_stage3_csv ["hello", stage3LineC8] = [] :=
  C8_header_abort "hello" [stage3LineC8] (by decide)

/-! Membership facts used by the filtering theorem (C4). -/

theorem containsEntry_updAppend {κ β : Type} [DecidableEq κ]
    (l : List (κ × List β)) (k' : κ) (v' : β) (k : κ) (v : β) :
    containsEntry (updAppend l k' v') k v ↔ containsEntry l k v ∨ (k = k' ∧ v = v') := by
  unfold updAppend
  by_cases hany : l.any (fun p => decide (p.1 = k')) = true
  · rw [if_pos hany]
    constructor
    · rintro ⟨p, hp, hpk, hv⟩
      obtain ⟨q, hq, hfq⟩ := List.mem_map.mp hp
      by_cases hqk : q.1 = k'
      · rw [if_pos hqk] at hfq
        subst hfq
        rcases List.mem_append.mp hv with hv | hv
        · exact Or.inl ⟨q, hq, hpk, hv⟩
        · refine Or.inr ⟨?_, List.mem_singleton.mp hv⟩
          rw [← hpk, hqk]
      · rw [if_neg hqk] at hfq
        subst hfq
        exact Or.inl ⟨q, hq, hpk, hv⟩
    · rintro (⟨p, hp, hpk, hv⟩ | ⟨hk, hv⟩)
      · by_cases hpk' : p.1 = k'
        · refine ⟨(p.1, p.2 ++ [v']), List.mem_map.mpr ⟨p, hp, by rw [if_pos hpk']⟩,
            hpk, List.mem_append_left _ hv⟩
        · exact ⟨p, List.mem_map.mpr ⟨p, hp, by rw [if_neg hpk']⟩, hpk, hv⟩
      · obtain ⟨p, hp, hpdec⟩ := List.any_eq_true.mp hany
        have hpk' : p.1 = k' := of_decide_eq_true hpdec
        refine ⟨(p.1, p.2 ++ [v']), List.mem_map.mpr ⟨p, hp, by rw [if_pos hpk']⟩, ?_, ?_⟩
        · rw [hpk', hk]
        · rw [hv]; exact List.mem_append_right _ (List.mem_singleton.mpr rfl)
  · rw [if_neg hany]
    constructor
    · rintro ⟨p, hp, hpk, hv⟩
      rcases List.mem_append.mp hp with hp | hp
      · exact Or.inl ⟨p, hp, hpk, hv⟩
      · rw [List.mem_singleton.mp hp] at hpk hv
        exact Or.inr ⟨hpk.symm, (List.mem_singleton.mp hv)⟩
    · rintro (⟨p, hp, hpk, hv⟩ | ⟨hk, hv⟩)
      · exact ⟨p, List.mem_append_left _ hp, hpk, hv⟩
      · exact ⟨(k', [v']), List.mem_append_right _ (List.mem_singleton.mpr rfl),
          hk.symm, by rw [hv]; exact List.mem_singleton.mpr rfl⟩

theorem parseRows_contains_sound {κ β : Type} [DecidableEq κ]
    (row : String → Except Unit (Option (κ × β))) (ls : List String) :
    ∀ acc k v, containsEntry (parseRows row acc ls) k v →
      containsEntry acc k v ∨ ∃ l ∈ ls, row l = .ok (some (k, v)) := by
  induction ls with
  | nil => intro acc k v h; exact Or.inl h
  | cons l ls ih =>
    intro acc k v h
    cases ho : row l with
    | error e =>
      rw [parseRows, ho] at h
      exact Or.inl h
    | ok o =>
      cases o with
      | none =>
        rw [parseRows, ho] at h
        rcases ih acc k v h with h1 | ⟨l', hl', h2⟩
        · exact Or.inl h1
        · exact Or.inr ⟨l', List.mem_cons_of_mem l hl', h2⟩
      | some kv =>
        rw [parseRows, ho] at h
        rcases ih (updAppend acc kv.1 kv.2) k v h with h1 | ⟨l', hl', h2⟩
        · rcases (containsEntry_updAppend acc kv.1 kv.2 k v).mp h1 with h3 | ⟨hk, hv⟩
          · exact Or.inl h3
          · refine Or.inr ⟨l, List.mem_cons_self l ls, ?_⟩
            rw [ho, hk, hv]
        · exact Or.inr ⟨l', List.mem_cons_of_mem l hl', h2⟩

theorem parseRows_contains_iff {κ β : Type} [DecidableEq κ]
    (row : String → Except Unit (Option (κ × β))) (ls : List String)
    (h : ∀ l ∈ ls, ∃ o, row l = .ok o) :
    ∀ acc k v, containsEntry (parseRows row acc ls) k v ↔
      containsEntry acc k v ∨ ∃ l ∈ ls, row l = .ok (some (k, v)) := by
  induction ls with
  | nil => intro acc k v; simp [parseRows]
  | cons l ls ih =>
    intro acc k v
    obtain ⟨o, ho⟩ := h l (List.mem_cons_self l ls)
    have h' : ∀ l' ∈ ls, ∃ o, row l' = .ok o :=
      fun l' hl' => h l' (List.mem_cons_of_mem l hl')
    cases o with
    | none =>
      rw [parseRows, ho, ih h' acc k v]
      constructor
      · rintro (h1 | ⟨l', hl', h2⟩)
        · exact Or.inl h1
        · exact Or.inr ⟨l', List.mem_cons_of_mem l hl', h2⟩
      · rintro (h1 | ⟨l', hl', h2⟩)
        · exact Or.inl h1
        · rcases List.mem_cons.mp hl' with rfl | hl'
          · rw [ho] at h2; simp at h2
          · exact Or.inr ⟨l', hl', h2⟩
    | some kv =>
      rw [parseRows, ho, ih h' (updAppend acc kv.1 kv.2) k v,
        containsEntry_updAppend]
      constructor
      · rintro ((h1 | ⟨hk, hv⟩) | ⟨l', hl', h2⟩)
        · exact Or.inl h1
        · refine Or.inr ⟨l, List.mem_cons_self l ls, ?_⟩
          rw [ho, hk, hv]
        · exact Or.inr ⟨l', List.mem_cons_of_mem l hl', h2⟩
      · rintro (h1 | ⟨l', hl', h2⟩)
        · exact Or.inl (Or.inl h1)
        · rcases List.mem_cons.mp hl' with rfl | hl'
          · rw [ho] at h2
            have hkv : kv = (k, v) := by
              have := Except.ok.inj h2
              exact Option.some.inj this
            exact Or.inl (Or.inr ⟨by rw [hkv], by rw [hkv]⟩)
          · exact Or.inr ⟨l', hl', h2⟩

theorem rowOutcome_some_hasQ {l : String} {k : FailedKey} {v : String × String}
    (h : rowOutcome l = .ok (some (k, v))) :
    pyHasChar '?' (rowGenotype l) = true := by
  unfold rowOutcome at h
  split at h
  · simp at h
  · split at h
    · simp at h
    · split at h
      · simp at h
      · split at h
        · simp at h
        · split at h
          · rename_i hq
            exact hq
          · simp at h

theorem rowOutcome_of_wellFormed {l : String} (hw : reportRowWellFormed l = true)
    (hq : pyHasChar '?' (rowGenotype l) = true) :
    ∃ kv, rowOutcome l = .ok (some kv) := by
  unfold reportRowWellFormed at hw
  rw [Bool.and_eq_true, Bool.and_eq_true] at hw
  obtain ⟨⟨h1, h2⟩, h3⟩ := hw
  have h1' : pyStartsWith "barcode" l = false := by
    cases hh : pyStartsWith "barcode" l
    · rfl
    · rw [hh] at h1; simp at h1
  have h2' : 22 ≤ (reportCols l).length := of_decide_eq_true h2
  have h3' : (splitChar ';' ((reportCols l).getD 1 "")).length = 2 := by
    simpa using h3
  unfold rowOutcome
  rw [if_neg (by simp [h1']), if_neg (by omega), if_neg (fun hh => hh h3'),
    if_neg (by omega),
    if_pos (show pyHasChar '?' ((reportCols l).getD 19 "") = true from hq)]
  exact ⟨_, rfl⟩

/-- C4: a row contributes an `(assay, alleleSymbol)` entry exactly when its
genotype field (column index 19) contains `?`.  First conjunct
(unconditional): every entry of the result comes from some input row whose
outcome produced it, and that row's genotype field contains `?` — no row
lacking `?` ever appears.  Second conjunct: when no row raises, membership in
the result is exactly production by some row.  Third conjunct: a parseable
row (non-header, at least 22 fields, composite splitting in two) produces an
entry if and only if its genotype field contains `?`. -/
theorem C4_genotype_filter (lines : List String) :
    (∀ k v, containsEntry (parse_failed_genotyping_results lines) k v →
       ∃ l ∈ lines, rowOutcome l = .ok (some (k, v)) ∧
         pyHasChar '?' (rowGenotype l) = true)
    ∧ ((∀ l ∈ lines, reportRowFails l = false) →
       ∀ k v, containsEntry (parse_failed_genotyping_results lines) k v ↔
         ∃ l ∈ lines, rowOutcome l = .ok (some (k, v)))
    ∧ (∀ l ∈ lines, reportRowWellFormed l = true →
       (pyHasChar '?' (rowGenotype l) = true ↔ ∃ kv, rowOutcome l = .ok (some kv))) := by
  refine ⟨?_, ?_, ?_⟩
  · intro k v h
    rcases parseRows_contains_sound rowOutcome lines [] k v h with h1 | ⟨l, hl, h2⟩
    · rcases h1 with ⟨p, hp, _⟩; simp at hp
    · exact ⟨l, hl, h2, rowOutcome_some_hasQ h2⟩
  · intro hok k v
    rw [parse_failed_genotyping_results,
      parseRows_contains_iff rowOutcome lines
        (fun l hl => reportRowFails_false_iff (hok l hl)) [] k v]
    constructor
    · rintro (h1 | h1)
      · rcases h1 with ⟨p, hp, _⟩; simp at hp
      · exact h1
    · exact Or.inr
  · intro l _ hw
    constructor
    · exact rowOutcome_of_wellFormed hw
    · rintro ⟨kv, hkv⟩
      exact rowOutcome_some_hasQ (k := kv.1) (v := kv.2) (by rw [hkv])

/-- A well-formed failing report row used by the C4 witness. -/
def goodLineC4 : String := "x,bcE;asE,p,B2,F,SymE,,,Pass,,,,,,,,,,,T?C,,r"

/-- C4 witness: the no-row-raises conjunct applied to a concrete one-row
input and a concrete key and value. -/
theorem C4_genotype_filter_witness :
    containsEntry (parse_failed_genotyping_results [goodLineC4])
        ("bcE", "p", "B2", "F") ("asE", "SymE") ↔
      ∃ l ∈ [goodLineC4],
        rowOutcome l = .ok (some ((("bcE", "p", "B2", "F")), ("asE", "SymE"))) :=
  (C4_genotype_filter [goodLineC4]).2.1 (by decide) ("bcE", "p", "B2", "F") ("asE", "SymE")

/-! The uninitialized `issue_num` global (C9). -/

theorem any_enumFrom_invalid :
    ∀ (cs : List Char) (n : Nat),
      (List.enumFrom n cs).any (fun p => !validNucl p.2) = cs.any (fun c => !validNucl c) := by
  intro cs
  induction cs with
  | nil => intro n; rfl
  | cons c cs ih => intro n; simp [List.enumFrom, ih]

theorem any_enum_invalid (cs : List Char) :
    cs.enum.any (fun p => !validNucl p.2) = cs.any (fun c => !validNucl c) :=
  any_enumFrom_invalid cs 0

theorem scanSeqChars_none (ln : Nat) (iss : List Issue) :
    ∀ cs, scanSeqChars none ln iss cs =
      (if cs.any (fun p => !validNucl p.2) then .error () else .ok (none, iss)) := by
  intro cs
  induction cs with
  | nil => simp [scanSeqChars]
  | cons p rest ih =>
    obtain ⟨idx, ch⟩ := p
    cases hv : validNucl ch
    · simp [scanSeqChars, hv]
    · rw [show scanSeqChars none ln iss ((idx, ch) :: rest) = scanSeqChars none ln iss rest by
        simp [scanSeqChars, hv], ih, List.any_cons]
      simp only [hv, Bool.not_true, Bool.false_or]

theorem checkValidSeqGo_none : ∀ (ls : List String) (n : Nat) (iss : List Issue),
    checkValidSeqGo none n iss ls =
      (if ls.any (fun l => !fastaSkipLine l && (cleanSeq l).data.any (fun c => !validNucl c))
       then .error () else .ok iss) := by
  intro ls
  induction ls with
  | nil => intro n iss; simp [checkValidSeqGo]
  | cons l ls ih =>
    intro n iss
    by_cases hskip : fastaSkipLine l = true
    · simp [checkValidSeqGo, hskip, ih]
    · have hskip' : fastaSkipLine l = false := eq_false_of_ne_true hskip
      have hscan := scanSeqChars_none n iss (cleanSeq l).data.enum
      rw [any_enum_invalid] at hscan
      cases hany : (cleanSeq l).data.any (fun c => !validNucl c)
      · rw [hany] at hscan
        simp only [Bool.false_eq_true, if_false] at hscan
        rw [show checkValidSeqGo none n iss (l :: ls) = checkValidSeqGo none (n + 1) iss ls by
          simp [checkValidSeqGo, hskip', hscan], ih, List.any_cons]
        simp only [hskip', hany, Bool.not_false, Bool.and_false, Bool.true_and, Bool.false_or]
      · rw [hany] at hscan
        simp only [if_true] at hscan
        rw [show checkValidSeqGo none n iss (l :: ls) = Except.error () by
          simp [checkValidSeqGo, hskip', hscan], List.any_cons]
        simp only [hskip', hany, Bool.not_false, Bool.and_true, Bool.true_and, Bool.true_or,
          if_true]

theorem checkGapsGo_none : ∀ (ls : List String) (n : Nat) (iss : List Issue),
    checkGapsGo none n iss ls =
      (if ls.any (fun l => !fastaSkipLine l && (pyHasChar ' ' l || pyHasChar '\t' l))
       then .error () else .ok iss) := by
  intro ls
  induction ls with
  | nil => intro n iss; simp [checkGapsGo]
  | cons l ls ih =>
    intro n iss
    by_cases hskip : fastaSkipLine l = true
    · simp [checkGapsGo, hskip, ih]
    · have hskip' : fastaSkipLine l = false := eq_false_of_ne_true hskip
      cases hgap : (pyHasChar ' ' l || pyHasChar '\t' l)
      · rw [show checkGapsGo none n iss (l :: ls) = checkGapsGo none (n + 1) iss ls by
          simp [checkGapsGo, hskip', hgap], ih, List.any_cons]
        simp only [hskip', hgap, Bool.not_false, Bool.and_false, Bool.true_and, Bool.false_or]
      · rw [show checkGapsGo none n iss (l :: ls) = Except.error () by
          simp [checkGapsGo, hskip', hgap], List.any_cons]
        simp only [hskip', hgap, Bool.not_false, Bool.and_true, Bool.true_and, Bool.true_or,
          if_true]

theorem checkBlankGo_none : ∀ (ls : List String) (n : Nat) (iss : List Issue),
    checkBlankGo none n iss ls =
      (if ls.any (fun l => pyStrip l == "") then .error () else .ok iss) := by
  intro ls
  induction ls with
  | nil => intro n iss; simp [checkBlankGo]
  | cons l ls ih =>
    intro n iss
    cases hblank : (pyStrip l == "")
    · rw [show checkBlankGo none n iss (l :: ls) = checkBlankGo none (n + 1) iss ls by
        simp [checkBlankGo, hblank], ih, List.any_cons]
      simp only [hblank, Bool.false_or]
    · rw [show checkBlankGo none n iss (l :: ls) = Except.error () by
        simp [checkBlankGo, hblank], List.any_cons]
      simp only [hblank, Bool.true_or, if_true]

theorem C9_uninitialized_issue_counter (file_content : String) :
    check_valid_sequence none file_content =
      (if hasInvalidSeqChar file_content then .error () else .ok [])
    ∧ check_gaps none file_content =
      (if hasGapIssue file_content then .error () else .ok [])
    ∧ check_blank_lines none file_content =
      (if hasBlankLine file_content then .error () else .ok []) := by
  refine ⟨?_, ?_, ?_⟩
  · rw [check_valid_sequence, checkValidSeqGo_none, hasInvalidSeqChar]
  · rw [check_gaps, checkGapsGo_none, hasGapIssue]
  · rw [check_blank_lines, checkBlankGo_none, hasBlankLine]

/-! The collator resolution scan (C5, C10). -/

theorem resAfter_nil (x : String) : resAfter x [] = x := by
  by_cases h : x = "" <;> simp [resAfter, firstNonEmptyD, h]

theorem resAfter_empty (l : List String) : resAfter "" l = firstNonEmptyD l := by
  simp [resAfter]

theorem resolveStep_fields (b : String) (as al : List String) (st : ResolveState)
    (r : Stage3Rec) :
    (resolveStep b as al st r).clientName = updFirst st.clientName r.clientName
    ∧ (resolveStep b as al st r).sampleName = updFirst st.sampleName r.sampleName
    ∧ (resolveStep b as al st r).dnaPlate = updFirst st.dnaPlate r.dnaPlate
    ∧ (resolveStep b as al st r).dnaWell = updFirst st.dnaWell r.dnaWell := by
  unfold resolveStep
  split <;> exact ⟨rfl, rfl, rfl, rfl⟩

theorem resolveFold_fields (b : String) (as al : List String) :
    ∀ (recs : List Stage3Rec) (st : ResolveState),
      ((recs.foldl (resolveStep b as al) st).clientName
          = resAfter st.clientName (recs.map Stage3Rec.clientName))
      ∧ ((recs.foldl (resolveStep b as al) st).sampleName
          = resAfter st.sampleName (recs.map Stage3Rec.sampleName))
      ∧ ((recs.foldl (resolveStep b as al) st).dnaPlate
          = resAfter st.dnaPlate (recs.map Stage3Rec.dnaPlate))
      ∧ ((recs.foldl (resolveStep b as al) st).dnaWell
          = resAfter st.dnaWell (recs.map Stage3Rec.dnaWell)) := by
  intro recs
  induction recs with
  | nil =>
    intro st
    simp [List.foldl_nil, List.map_nil, resAfter_nil]
  | cons r recs ih =>
    intro st
    obtain ⟨h1, h2, h3, h4⟩ := ih (resolveStep b as al st r)
    obtain ⟨g1, g2, g3, g4⟩ := resolveStep_fields b as al st r
    refine ⟨?_, ?_, ?_, ?_⟩
    · rw [List.foldl_cons, h1, g1, List.map_cons, resAfter_cons]
    · rw [List.foldl_cons, h2, g2, List.map_cons, resAfter_cons]
    · rw [List.foldl_cons, h3, g3, List.map_cons, resAfter_cons]
    · rw [List.foldl_cons, h4, g4, List.map_cons, resAfter_cons]

/-- C5: for a failed-assay key whose barcode is present in the Stage3 index,
the collator's scan of that barcode's records resolves each of dnaPlate,
dnaWell, clientName and sampleName to the first non-empty value encountered
in record order (empty until a non-empty value appears, frozen afterwards).
The fold below, started from the empty scan state, is exactly what
`processIdent` — and hence `collate_manifest_entries` — runs when
`alGet stage3 b` succeeds. -/
theorem C5_first_nonempty_resolution (b : String) (as al : List String)
    (stage3 : Stage3Index) (recs : List Stage3Rec) (ps₀ : PlateSet)
    (_h : alGet stage3 b = some recs) :
    ((recs.foldl (resolveStep b as al) ⟨"", "", "", "", ps₀⟩).dnaPlate
        = firstNonEmptyD (recs.map Stage3Rec.dnaPlate))
    ∧ ((recs.foldl (resolveStep b as al) ⟨"", "", "", "", ps₀⟩).dnaWell
        = firstNonEmptyD (recs.map Stage3Rec.dnaWell))
    ∧ ((recs.foldl (resolveStep b as al) ⟨"", "", "", "", ps₀⟩).clientName
        = firstNonEmptyD (recs.map Stage3Rec.clientName))
    ∧ ((recs.foldl (resolveStep b as al) ⟨"", "", "", "", ps₀⟩).sampleName
        = firstNonEmptyD (recs.map Stage3Rec.sampleName)) := by
  obtain ⟨h1, h2, h3, h4⟩ := resolveFold_fields b as al recs ⟨"", "", "", "", ps₀⟩
  exact ⟨by rw [h3, resAfter_empty], by rw [h4, resAfter_empty],
    by rw [h1, resAfter_empty], by rw [h2, resAfter_empty]⟩

/-- A Stage3 record with only dnaWell and sampleName filled. -/
def recC5a : Stage3Rec := ⟨"", "W1", "", "", "", "", "", "", "S1"⟩

/-- A Stage3 record with dnaPlate, dnaWell, clientName and sampleName filled. -/
def recC5b : Stage3Rec := ⟨"P1", "W2", "", "", "", "", "", "C2", "S2"⟩

/-- A one-barcode Stage3 index for the C5 witness. -/
def stage3C5 : Stage3Index := [("b", [recC5a, recC5b])]

/-- C5 witness: the resolution theorem applied to a concrete two-record scan;
dnaWell and sampleName freeze on the first record, dnaPlate and clientName on
the second. -/
theorem C5_first_nonempty_witness :
    ((([recC5a, recC5b]).foldl (resolveStep "b" ["A"] ["S"]) ⟨"", "", "", "", []⟩).dnaPlate
        = firstNonEmptyD ([recC5a, recC5b].map Stage3Rec.dnaPlate))
    ∧ ((([recC5a, recC5b]).foldl (resolveStep "b" ["A"] ["S"]) ⟨"", "", "", "", []⟩).dnaWell
        = firstNonEmptyD ([recC5a, recC5b].map Stage3Rec.dnaWell))
    ∧ ((([recC5a, recC5b]).foldl (resolveStep "b" ["A"] ["S"]) ⟨"", "", "", "", []⟩).clientName
        = firstNonEmptyD ([recC5a, recC5b].map Stage3Rec.clientName))
    ∧ ((([recC5a, recC5b]).foldl (resolveStep "b" ["A"] ["S"]) ⟨"", "", "", "", []⟩).sampleName
        = firstNonEmptyD ([recC5a, recC5b].map Stage3Rec.sampleName)) :=
  C5_first_nonempty_resolution "b" ["A"] ["S"] stage3C5 [recC5a, recC5b] [] rfl

theorem alGet_any {κ β : Type} [DecidableEq κ] (l : List (κ × β)) (k : κ) (v : β)
    (h : alGet l k = some v) : l.any (fun q => decide (q.1 = k)) = true := by
  induction l with
  | nil => simp [alGet] at h
  | cons q t ih =>
    by_cases hq : q.1 = k
    · simp [List.any_cons, hq]
    · rw [alGet, if_neg hq] at h
      simp [List.any_cons, ih h]

theorem alGet_map_update {κ β : Type} [DecidableEq κ] (l : List (κ × β)) (k : κ)
    (f : β → β) (v : β) (h : alGet l k = some v) :
    alGet (l.map (fun q => if q.1 = k then (q.1, f q.2) else q)) k = some (f v) := by
  induction l with
  | nil => simp [alGet] at h
  | cons q t ih =>
    by_cases hq : q.1 = k
    · rw [alGet, if_pos hq] at h
      rw [List.map_cons, if_pos hq, alGet, if_pos hq]
      rw [Option.some.inj h]
    · rw [alGet, if_neg hq] at h
      rw [List.map_cons, if_neg hq, alGet, if_neg hq]
      exact ih h

theorem getWell_placeEntry {ps : PlateSet} {p w : String} {e : PlateWellEntry}
    (b : String) (as al : List String) (c s : String)
    (h : getWell ps p w = some e) :
    getWell (placeEntry ps p w b as al c s) p w = some (fillNames e c s) := by
  unfold getWell at h ⊢
  cases hp : alGet ps p with
  | none => rw [hp] at h; simp at h
  | some wells =>
    rw [hp] at h
    simp only [Option.some_bind] at h
    unfold placeEntry
    rw [if_pos (alGet_any ps p wells hp)]
    rw [alGet_map_update ps p (fun ws => placeWell ws w b as al c s) wells hp]
    simp only [Option.some_bind]
    unfold placeWell
    rw [if_pos (alGet_any wells w e h)]
    exact alGet_map_update wells w (fun q => fillNames q c s) e h

theorem fillNames_resolved_eq (e : PlateWellEntry) (c' s' : String) (mc ms : List String) :
    (⟨(fillNames e c' s').barcode, (fillNames e c' s').assays,
      (fillNames e c' s').alleleSymbols,
      (if (fillNames e c' s').clientName = "" then resAfter c' mc
       else (fillNames e c' s').clientName),
      (if (fillNames e c' s').sampleName = "" then resAfter s' ms
       else (fillNames e c' s').sampleName)⟩ : PlateWellEntry) =
    ⟨e.barcode, e.assays, e.alleleSymbols,
      (if e.clientName = "" then resAfter c' mc else e.clientName),
      (if e.sampleName = "" then resAfter s' ms else e.sampleName)⟩ := by
  simp only [fillNames, PlateWellEntry.mk.injEq, true_and]
  constructor
  · by_cases h1 : e.clientName = "" <;> by_cases h2 : c' = "" <;>
      simp [h1, h2, resAfter]
  · by_cases h1 : e.sampleName = "" <;> by_cases h2 : s' = "" <;>
      simp [h1, h2, resAfter]

theorem resolveFold_existing_entry (b : String) (as al : List String) (p w : String)
    (hp0 : p ≠ "") (hw0 : w ≠ "") :
    ∀ (recs : List Stage3Rec) (c s pc wc : String) (ps : PlateSet) (e : PlateWellEntry),
      resAfter pc (recs.map Stage3Rec.dnaPlate) = p →
      resAfter wc (recs.map Stage3Rec.dnaWell) = w →
      getWell ps p w = some e →
      (pc ≠ "" → wc ≠ "" →
        (c ≠ "" → e.clientName ≠ "") ∧ (s ≠ "" → e.sampleName ≠ "")) →
      getWell ((recs.foldl (resolveStep b as al) ⟨c, s, pc, wc, ps⟩).ps) p w =
        some ⟨e.barcode, e.assays, e.alleleSymbols,
          (if e.clientName = "" then resAfter c (recs.map Stage3Rec.clientName)
           else e.clientName),
          (if e.sampleName = "" then resAfter s (recs.map Stage3Rec.sampleName)
           else e.sampleName)⟩ := by
  intro recs
  induction recs with
  | nil =>
    intro c s pc wc ps e hp hw he hinv
    rw [List.map_nil, resAfter_nil] at hp hw
    obtain ⟨hc, hs⟩ := hinv (by rw [hp]; exact hp0) (by rw [hw]; exact hw0)
    rw [List.foldl_nil]
    rw [he]
    have hcfield : (if e.clientName = "" then resAfter c ([] : List String)
        else e.clientName) = e.clientName := by
      by_cases h1 : e.clientName = ""
      · have hcz : c = "" := by
          by_cases h2 : c = ""
          · exact h2
          · exact absurd h1 (hc h2)
        rw [if_pos h1, hcz, resAfter_nil, h1]
      · rw [if_neg h1]
    have hsfield : (if e.sampleName = "" then resAfter s ([] : List String)
        else e.sampleName) = e.sampleName := by
      by_cases h1 : e.sampleName = ""
      · have hsz : s = "" := by
          by_cases h2 : s = ""
          · exact h2
          · exact absurd h1 (hs h2)
        rw [if_pos h1, hsz, resAfter_nil, h1]
      · rw [if_neg h1]
    rw [List.map_nil, List.map_nil, hcfield, hsfield]
  | cons r recs ih =>
    intro c s pc wc ps e hp hw he hinv
    rw [List.map_cons, resAfter_cons] at hp hw
    rw [List.foldl_cons, List.map_cons, List.map_cons, resAfter_cons, resAfter_cons]
    by_cases hcond : updFirst pc r.dnaPlate ≠ "" ∧ updFirst wc r.dnaWell ≠ ""
    · have hp' : updFirst pc r.dnaPlate = p := by
        rw [resAfter, if_neg hcond.1] at hp
        exact hp
      have hw' : updFirst wc r.dnaWell = w := by
        rw [resAfter, if_neg hcond.2] at hw
        exact hw
      have hstep : resolveStep b as al ⟨c, s, pc, wc, ps⟩ r =
          ⟨updFirst c r.clientName, updFirst s r.sampleName, p, w,
            placeEntry ps p w b as al (updFirst c r.clientName)
              (updFirst s r.sampleName)⟩ := by
        unfold resolveStep
        rw [if_pos hcond, hp', hw']
      rw [hstep]
      rw [ih (updFirst c r.clientName) (updFirst s r.sampleName) p w
        (placeEntry ps p w b as al (updFirst c r.clientName) (updFirst s r.sampleName))
        (fillNames e (updFirst c r.clientName) (updFirst s r.sampleName))
        (by rw [resAfter, if_neg hp0])
        (by rw [resAfter, if_neg hw0])
        (getWell_placeEntry b as al (updFirst c r.clientName) (updFirst s r.sampleName) he)
        ?_]
      · rw [fillNames_resolved_eq]
      · intro _ _
        constructor
        · intro hcne
          simp only [fillNames]
          by_cases h1 : e.clientName = ""
          · rw [if_pos ⟨hcne, h1⟩]; exact hcne
          · rw [if_neg (fun hh => h1 hh.2)]; exact h1
        · intro hsne
          simp only [fillNames]
          by_cases h1 : e.sampleName = ""
          · rw [if_pos ⟨hsne, h1⟩]; exact hsne
          · rw [if_neg (fun hh => h1 hh.2)]; exact h1
    · have hstep : resolveStep b as al ⟨c, s, pc, wc, ps⟩ r =
          ⟨updFirst c r.clientName, updFirst s r.sampleName,
           updFirst pc r.dnaPlate, updFirst wc r.dnaWell, ps⟩ := by
        unfold resolveStep
        rw [if_neg hcond]
      rw [hstep]
      exact ih (updFirst c r.clientName) (updFirst s r.sampleName)
        (updFirst pc r.dnaPlate) (updFirst wc r.dnaWell) ps e hp hw he
        (fun h1 h2 => absurd ⟨h1, h2⟩ hcond)

/-- C10: when a failed-assay key resolves to a `(dnaPlate, dnaWell)` whose
entry already exists (created by an earlier key), the scan leaves the entry's
barcode, assays and alleleSymbols untouched — the later key's assay and
allele-symbol lists, passed to the fold below, do not appear in the result —
while the later key's resolved clientName/sampleName still fill the entry's
fields when (and only when) those are still empty. -/
theorem C10_well_collision (b : String) (as al : List String)
    (recs : List Stage3Rec) (p w : String) (ps₀ : PlateSet) (e₀ : PlateWellEntry)
    (hp : firstNonEmptyD (recs.map Stage3Rec.dnaPlate) = p)
    (hw : firstNonEmptyD (recs.map Stage3Rec.dnaWell) = w)
    (hp0 : p ≠ "") (hw0 : w ≠ "")
    (he : getWell ps₀ p w = some e₀) :
    getWell ((recs.foldl (resolveStep b as al) ⟨"", "", "", "", ps₀⟩).ps) p w =
      some ⟨e₀.barcode, e₀.assays, e₀.alleleSymbols,
        (if e₀.clientName = "" then firstNonEmptyD (recs.map Stage3Rec.clientName)
         else e₀.clientName),
        (if e₀.sampleName = "" then firstNonEmptyD (recs.map Stage3Rec.sampleName)
         else e₀.sampleName)⟩ := by
  have h := resolveFold_existing_entry b as al p w hp0 hw0 recs "" "" "" "" ps₀ e₀
    (by rw [resAfter_empty]; exact hp) (by rw [resAfter_empty]; exact hw) he
    (fun h1 _ => absurd rfl h1)
  rw [h, resAfter_empty, resAfter_empty]

/-- The entry created for the first key in the C10 witness. -/
def entryC10 : PlateWellEntry := ⟨"b1", ["A1"], ["S1"], "", "Z"⟩

/-- The plate set already holding `entryC10` at (P, W). -/
def platesC10 : PlateSet := [("P", [("W", entryC10)])]

/-- The Stage3 record scanned for the second key in the C10 witness. -/
def recC10 : Stage3Rec := ⟨"P", "W", "", "", "", "", "", "C2", "S2"⟩

/-- C10 witness: the collision theorem applied to a concrete second key whose
scan resolves to the already-populated well (P, W): the entry keeps the first
key's barcode/assays/alleleSymbols, its empty clientName is filled, its
non-empty sampleName is kept. -/
theorem C10_well_collision_witness :
    getWell (([recC10].foldl (resolveStep "b2" ["A2"] ["S2x"]) ⟨"", "", "", "", platesC10⟩).ps)
        "P" "W" =
      some ⟨entryC10.barcode, entryC10.assays, entryC10.alleleSymbols,
        (if entryC10.clientName = "" then firstNonEmptyD ([recC10].map Stage3Rec.clientName)
         else entryC10.clientName),
        (if entryC10.sampleName = "" then firstNonEmptyD ([recC10].map Stage3Rec.sampleName)
         else entryC10.sampleName)⟩ :=
  C10_well_collision "b2" ["A2"] ["S2x"] [recC10] "P" "W" platesC10 entryC10
    rfl rfl (by decide) (by decide) rfl

/-! The manifest writer's ordering and padding (C6, C7). -/

/-- A well is present in a plate's entry map. -/
def wellPresent (ps : PlateSet) (g w : String) : Bool :=
  (getWell ps g w).isSome

/-- Following the spec's words: the `(plate, well)` cells the writer must
emit — plates in sorted key order, and within each plate the canonical
384-well order restricted to the wells present in that plate's entry map. -/
def specOrderedCells (ps : PlateSet) : List (String × String) :=
  (sortStrings (ps.map Prod.fst)).flatMap (fun g =>
    (col_ordered_384.filter (fun w => wellPresent ps g w)).map (fun w => (g, w)))

theorem foldWells_spec (ps : PlateSet) (g : String) :
    ∀ (poss : List String) (c : Nat) (rows : List String),
      poss.foldl (wellStep ps g) (c, rows) =
        (c + (poss.filter (fun pos => wellPresent ps g pos)).length,
         rows ++ (List.enumFrom c (poss.filter (fun pos => wellPresent ps g pos))).map
           (fun q => renderRow (q.1 + 1) g q.2 (getWellD ps g q.2))) := by
  intro poss
  induction poss with
  | nil => intro c rows; simp
  | cons pos rest ih =>
    intro c rows
    rw [List.foldl_cons]
    cases hw : getWell ps g pos with
    | some e =>
      have hpres : wellPresent ps g pos = true := by
        unfold wellPresent; rw [hw]; rfl
      have hstep : wellStep ps g (c, rows) pos
          = (c + 1, rows ++ [renderRow (c + 1) g pos e]) := by
        unfold wellStep; rw [hw]
      have hget : getWellD ps g pos = e := by
        unfold getWellD getWell at *
        rw [show (alGet ps g).bind (fun ws => alGet ws pos) = some e from hw]
        rfl
      rw [hstep, ih (c + 1) (rows ++ [renderRow (c + 1) g pos e])]
      rw [List.filter_cons, if_pos hpres]
      refine Prod.ext ?_ ?_
      · simp only [List.length_cons]
        omega
      · simp only [List.enumFrom, List.map_cons, hget, List.append_assoc,
          List.singleton_append]
    | none =>
      have hpres : wellPresent ps g pos = false := by
        unfold wellPresent; rw [hw]; rfl
      have hstep : wellStep ps g (c, rows) pos = (c, rows) := by
        unfold wellStep; rw [hw]
      rw [hstep, ih c rows, List.filter_cons, if_neg (by rw [hpres]; simp)]

theorem enumFrom_map_pair_render (ps : PlateSet) (g : String) :
    ∀ (ws : List String) (c : Nat),
      (List.enumFrom c (ws.map (fun w => (g, w)))).map
        (fun q => renderRow (q.1 + 1) q.2.1 q.2.2 (getWellD ps q.2.1 q.2.2)) =
      (List.enumFrom c ws).map (fun q => renderRow (q.1 + 1) g q.2 (getWellD ps g q.2)) := by
  intro ws
  induction ws with
  | nil => intro c; rfl
  | cons w ws ih => intro c; simp only [List.map_cons, List.enumFrom, ih]

theorem manifestFold_spec (ps : PlateSet) :
    ∀ (keys : List String) (c : Nat) (rows : List String),
      keys.foldl (fun acc g => col_ordered_384.foldl (wellStep ps g) acc) (c, rows) =
        (c + (keys.flatMap (fun g =>
            (col_ordered_384.filter (fun w => wellPresent ps g w)).map
              (fun w => (g, w)))).length,
         rows ++ (List.enumFrom c (keys.flatMap (fun g =>
             (col_ordered_384.filter (fun w => wellPresent ps g w)).map
               (fun w => (g, w))))).map
           (fun q => renderRow (q.1 + 1) q.2.1 q.2.2 (getWellD ps q.2.1 q.2.2))) := by
  intro keys
  induction keys with
  | nil => intro c rows; simp
  | cons g keys ih =>
    intro c rows
    rw [List.foldl_cons, foldWells_spec ps g col_ordered_384 c rows,
      ih (c + (col_ordered_384.filter (fun w => wellPresent ps g w)).length)
        (rows ++ (List.enumFrom c (col_ordered_384.filter (fun w => wellPresent ps g w))).map
          (fun q => renderRow (q.1 + 1) g q.2 (getWellD ps g q.2))),
      List.flatMap_cons]
    refine Prod.ext ?_ ?_
    · simp only [List.length_append, List.length_map]
      omega
    · rw [List.enumFrom_append, List.map_append, List.append_assoc,
        enumFrom_map_pair_render, List.length_map]

/-- C6: for a non-empty plate set, the writer's plate iteration order — the
`sorted` key list — is sorted under the lexicographic string order and is a
permutation of the plate keys, and the emitted body rows are exactly the
spec-side cell sequence (plates in sorted order, wells in the canonical
384-well order restricted to the wells present) rendered with the 1-based
running sample counter: no well out of that order, no row for an absent
well. -/
theorem C6_manifest_order (ps : PlateSet) (_h : ps ≠ []) :
    List.Pairwise (fun a b => strLeB a b = true) (sortStrings (ps.map Prod.fst))
    ∧ (sortStrings (ps.map Prod.fst)).Perm (ps.map Prod.fst)
    ∧ manifestBody ps = (specOrderedCells ps).enum.map
        (fun q => renderRow (q.1 + 1) q.2.1 q.2.2 (getWellD ps q.2.1 q.2.2)) := by
  refine ⟨sortStrings_sorted _, sortStrings_perm _, ?_⟩
  unfold manifestBody specOrderedCells
  rw [manifestFold_spec ps (sortStrings (ps.map Prod.fst)) 0 []]
  rw [List.nil_append]
  rfl

/-- An entry for the C6 witness. -/
def entryC6a : PlateWellEntry := ⟨"x1", ["Aa"], ["Sa"], "ca", "na"⟩

/-- Another entry for the C6 witness. -/
def entryC6b : PlateWellEntry := ⟨"x2", ["Ab"], ["Sb"], "cb", "nb"⟩

/-- A two-plate plate set, listed in non-sorted key order. -/
def platesC6 : PlateSet := [("P2", [("B1", entryC6a)]), ("P1", [("A1", entryC6b)])]

/-- C6 witness: the ordering theorem applied to a concrete two-plate set. -/
theorem C6_manifest_order_witness :
    List.Pairwise (fun a b => strLeB a b = true) (sortStrings (platesC6.map Prod.fst))
    ∧ (sortStrings (platesC6.map Prod.fst)).Perm (platesC6.map Prod.fst)
    ∧ manifestBody platesC6 = (specOrderedCells platesC6).enum.map
        (fun q => renderRow (q.1 + 1) q.2.1 q.2.2 (getWellD platesC6 q.2.1 q.2.2)) :=
  C6_manifest_order platesC6 (by decide)

/-- C7: in every emitted manifest row, when the entry's assay list has at
most 7 entries the assay block between sampleBarcode and clientName is the
assay list padded with empty strings to exactly 7 columns; when it has more
than 7 entries no padding is added and the whole list appears untruncated,
widening the row. -/
theorem C7_assay_padding (c : Nat) (g pos : String) (e : PlateWellEntry) :
    (e.assays.length ≤ 7 →
      (e.assays ++ List.replicate (7 - e.assays.length) "").length = 7
      ∧ renderRowFields c g pos e =
          [Nat.repr c, unguard_pbc g, pos, e.barcode]
            ++ (e.assays ++ List.replicate (7 - e.assays.length) "")
            ++ [e.clientName, unguard e.sampleName,
                String.intercalate ";" e.alleleSymbols])
    ∧ (7 < e.assays.length →
      renderRowFields c g pos e =
        [Nat.repr c, unguard_pbc g, pos, e.barcode] ++ e.assays
          ++ [e.clientName, unguard e.sampleName,
              String.intercalate ";" e.alleleSymbols]) := by
  constructor
  · intro h
    constructor
    · simp only [List.length_append, List.length_replicate]
      omega
    · rfl
  · intro h
    unfold renderRowFields
    rw [Nat.sub_eq_zero_of_le (le_of_lt h), List.replicate_zero, List.append_nil]

/-- An entry with two failed assays for the C7 witness. -/
def entryC7 : PlateWellEntry := ⟨"bc", ["A1x", "A2x"], ["Sy"], "cl", "sn"⟩

/-- C7 witness: the padding theorem applied to a concrete entry with two
assays — the assay block is padded to exactly 7 columns. -/
theorem C7_assay_padding_witness :
    (entryC7.assays ++ List.replicate (7 - entryC7.assays.length) "").length = 7
    ∧ renderRowFields 1 "g" "A1" entryC7 =
        [Nat.repr 1, unguard_pbc "g", "A1", entryC7.barcode]
          ++ (entryC7.assays ++ List.replicate (7 - entryC7.assays.length) "")
          ++ [entryC7.clientName, unguard entryC7.sampleName,
              String.intercalate ";" entryC7.alleleSymbols] :=
  (C7_assay_padding 1 "g" "A1" entryC7).1 (by decide)
